import Mathlib

/-!
Verification of the core compositing pipeline of the `vdo` repository:
the chroma-key pixel filter, the geometry/transform model of the
foreground layer, the render-loop fallback behaviour, the percent/pixel
position mapping of the controls, the hex colour conversions, and the
recording-start pipeline (container selection and audio-graph outcome).

Numbers: JavaScript `number` arithmetic on the values involved is modelled
over `ℚ` (all the expressions the claims touch are exact small rationals);
`Math.round` is modelled by Mathlib's `round` (both round halves toward
+infinity).  Pixel channels are 8-bit naturals.
-/

/-- An RGBA pixel of an `ImageData` buffer (`data[i] .. data[i+3]`). -/
structure Pixel where
  r : ℕ
  g : ℕ
  b : ℕ
  a : ℕ
deriving DecidableEq

/-- `RGBColor` from `types.ts`. -/
structure RGBColor where
  r : ℕ
  g : ℕ
  b : ℕ
deriving DecidableEq

/-- `ChromaKeySettings` from `types.ts`. -/
structure ChromaKeySettings where
  color : RGBColor
  hexColor : String
  tolerance : ℕ
deriving DecidableEq

/-- Squared Euclidean RGB distance between a pixel and the key colour.
The source computes `Math.sqrt` of exactly this integer quantity. -/
def sqDist (p : Pixel) (k : RGBColor) : ℤ :=
  ((p.r : ℤ) - k.r) ^ 2 + ((p.g : ℤ) - k.g) ^ 2 + ((p.b : ℤ) - k.b) ^ 2

/-- One step of the chroma-key loop in `PreviewCanvas.render`:
`if (distance < tolerance) data[i+3] = 0`.  The source compares
`Math.sqrt (sqDist)` with the integer `tolerance`; since both sides are
exact, this equals the integer comparison `sqDist < tolerance²`
(the equivalence with the square-root form is proved below). -/
def chromaKeyPixel (key : RGBColor) (tolerance : ℕ) (p : Pixel) : Pixel :=
  if sqDist p key < (tolerance : ℤ) ^ 2 then { p with a := 0 } else p

/-- The chroma-key filter applied to a whole frame buffer: the loop
`for (i = 0; i < data.length; i += 4)` visits each RGBA quadruple once. -/
def chromaKeyFrame (key : RGBColor) (tolerance : ℕ) (frame : List Pixel) : List Pixel :=
  frame.map (chromaKeyPixel key tolerance)

/-- Intrinsic dimensions of the bottom layer (`LayerDimensions` in `App.tsx`). -/
structure LayerDimensions where
  width : ℕ
  height : ℕ
deriving DecidableEq

/-- `VideoTransform` from `types.ts`; field values are JavaScript numbers. -/
structure VideoTransform where
  x : ℚ
  y : ℚ
  width : ℚ
  height : ℚ
  size : ℚ
deriving DecidableEq

/-- Aspect ratio reported in `handleTopLayerLoad`: `naturalWidth / naturalHeight`. -/
def aspectRatioOf (w h : ℕ) : ℚ := (w : ℚ) / (h : ℚ)

/-- The initial-transform effect in `App.tsx` (runs when a top layer and the
bottom-layer dimensions are both present): `widthAt100Percent = width * 0.5`,
`newHeight = newWidth / aspectRatio`, rounded fields, centered `x`, `y`. -/
def deriveInitialTransform (dims : LayerDimensions) (aspectRatio : ℚ) : VideoTransform :=
  let widthAt100Percent : ℚ := (dims.width : ℚ) * (1 / 2)
  let newWidth := widthAt100Percent
  let newHeight := newWidth / aspectRatio
  { size := 100
  , width := (round newWidth : ℤ)
  , height := (round newHeight : ℤ)
  , x := (round (((dims.width : ℚ) - newWidth) / 2) : ℤ)
  , y := (round (((dims.height : ℚ) - newHeight) / 2) : ℤ) }

/-- A partial `VideoTransform` update (`Partial<VideoTransform>` in the source):
a field absent from the update object is `none`. -/
structure PartialTransform where
  x : Option ℚ := none
  y : Option ℚ := none
  width : Option ℚ := none
  height : Option ℚ := none
  size : Option ℚ := none
deriving DecidableEq

/-- The object spread `{ ...prev, ...newPartialTransform }`. -/
def mergePartial (prev : VideoTransform) (p : PartialTransform) : VideoTransform :=
  { x := p.x.getD prev.x
  , y := p.y.getD prev.y
  , width := p.width.getD prev.width
  , height := p.height.getD prev.height
  , size := p.size.getD prev.size }

/-- `handleTransformChange` in `App.tsx`.  The first two arguments are the
`topLayerAspectRatio` and `bottomLayerDimensions` state (null modelled as
`none`); the guard `if (!topLayerAspectRatio || !bottomLayerDimensions) return`
drops the update (`0` is falsy in JavaScript, hence the `aspectRatio = 0`
case also returns).  When `partial.size` is present, `width`/`height` are
recomputed from `baseWidth = bottomLayerDimensions.width * 0.5` scaled by
`size / 100`. -/
def handleTransformChange (aspectRatioOpt : Option ℚ) (dimsOpt : Option LayerDimensions)
    (prev : VideoTransform) (p : PartialTransform) : VideoTransform :=
  match aspectRatioOpt, dimsOpt with
  | some aspectRatio, some dims =>
    if aspectRatio = 0 then prev
    else
      let updatedTransform := mergePartial prev p
      match p.size with
      | some s =>
        let baseWidth : ℚ := (dims.width : ℚ) * (1 / 2)
        let newWidth := baseWidth * (s / 100)
        { updatedTransform with
            width := (round newWidth : ℤ)
          , height := (round (newWidth / aspectRatio) : ℤ) }
      | none => updatedTransform
  | _, _ => prev

/-- The drag anchor stored in `dragStartRef` (`DragSession`). -/
structure DragStart where
  startX : ℚ
  startY : ℚ
  initialTransformX : ℚ
  initialTransformY : ℚ
deriving DecidableEq

/-- `handleDragMove` in `PreviewCanvas`: the partial update passed to
`onTransformChange` for a pointer at `pos` while dragging. -/
def handleDragMove (drag : DragStart) (pos : ℚ × ℚ) : PartialTransform :=
  let dx := pos.1 - drag.startX
  let dy := pos.2 - drag.startY
  { x := some ((round (drag.initialTransformX + dx) : ℤ) : ℚ)
  , y := some ((round (drag.initialTransformY + dy) : ℤ) : ℚ) }

/-- Left/right pixel→percent display mapping in the `VideoControls` effect:
`movableWidth = bottomWidth - transform.width`,
`lrPercent = movableWidth <= 0 ? 50 : (transform.x / movableWidth) * 100`,
then `Math.max(0, Math.min(100, lrPercent))`. -/
def pixelToPercentLR (dims : LayerDimensions) (t : VideoTransform) : ℚ :=
  let movableWidth := (dims.width : ℚ) - t.width
  let lrPercent := if movableWidth ≤ 0 then 50 else (t.x / movableWidth) * 100
  max 0 (min 100 lrPercent)

/-- Up/down pixel→percent display mapping (same effect, `y` axis). -/
def pixelToPercentUD (dims : LayerDimensions) (t : VideoTransform) : ℚ :=
  let movableHeight := (dims.height : ℚ) - t.height
  let udPercent := if movableHeight ≤ 0 then 50 else (t.y / movableHeight) * 100
  max 0 (min 100 udPercent)

/-- The `lr_pos_percent` case of `handlePercentageInputChange`: the new `x`
value, `movableWidth <= 0 ? movableWidth / 2 : Math.round((numValue / 100) * movableWidth)`. -/
def percentToPixelLR (dims : LayerDimensions) (t : VideoTransform) (numValue : ℚ) : ℚ :=
  let movableWidth := (dims.width : ℚ) - t.width
  if movableWidth ≤ 0 then movableWidth / 2
  else ((round ((numValue / 100) * movableWidth) : ℤ) : ℚ)

/-- The `ud_pos_percent` case of `handlePercentageInputChange`: the new `y` value. -/
def percentToPixelUD (dims : LayerDimensions) (t : VideoTransform) (numValue : ℚ) : ℚ :=
  let movableHeight := (dims.height : ℚ) - t.height
  if movableHeight ≤ 0 then movableHeight / 2
  else ((round ((numValue / 100) * movableHeight) : ℤ) : ℚ)

/-- A rational is an integer (a "rounded" pixel value). -/
def isIntegral (q : ℚ) : Prop := ∃ k : ℤ, q = (k : ℚ)

/-- A candidate entry of `getSupportedMimeType`'s lists. -/
structure MimeChoice where
  mimeType : String
  extension : String
deriving DecidableEq

/-- The WebM-first candidate list (`webmPrioritizedTypes` in `App.tsx`). -/
def webmPrioritizedTypes : List MimeChoice :=
  [ ⟨"video/webm;codecs=vp9,opus", "webm"⟩
  , ⟨"video/webm;codecs=vp8,vorbis", "webm"⟩
  , ⟨"video/webm", "webm"⟩
  , ⟨"video/mp4", "mp4"⟩ ]

/-- The MP4-first candidate list used by the Safari family
(`mp4PrioritizedTypes` in `App.tsx`). -/
def mp4PrioritizedTypes : List MimeChoice :=
  [ ⟨"video/mp4", "mp4"⟩
  , ⟨"video/webm;codecs=vp9,opus", "webm"⟩ ]

/-- `getSupportedMimeType` in `App.tsx`: the list is chosen by the Safari
user-agent test, the first entry the runtime probe reports supported wins,
and the fallback when none is supported is `{ mimeType: '', extension: 'webm' }`. -/
def getSupportedMimeType (isSafari : Bool) (isTypeSupported : String → Bool) : MimeChoice :=
  let typesToCheck := if isSafari then mp4PrioritizedTypes else webmPrioritizedTypes
  match typesToCheck.find? (fun t => isTypeSupported t.mimeType) with
  | some t => t
  | none => ⟨"", "webm"⟩

/-- The container a mime type names (by its leading `video/...` characters). -/
def mimeContainer (m : String) : Option String :=
  if ("video/webm".toList).isPrefixOf m.toList then some "webm"
  else if ("video/mp4".toList).isPrefixOf m.toList then some "mp4"
  else none

/-- The download filename built in the recorder's `onstop` handler:
`videyo_export.${supportedType.extension}`. -/
def downloadFilename (extension : String) : String := "videyo_export." ++ extension

/-- A loaded video-type source element as `handleStartRecording` sees it:
its `readyState`, and whether `createMediaElementSource(..).connect(..)`
succeeds for it (throws otherwise). -/
structure VideoSource where
  readyState : ℕ
  connectSucceeds : Bool
deriving DecidableEq

/-- The `hasAudio` flag after the `videoElements.forEach` connection loop:
a source contributes only when `readyState > 0` and its connection attempt
does not throw (a throw is caught and the source skipped). -/
def hasAudioAfter (sources : List VideoSource) : Bool :=
  sources.foldl
    (fun hasAudio v =>
      if 0 < v.readyState then
        (if v.connectSucceeds then true else hasAudio)
      else hasAudio)
    false

/-- The combined output stream handed to `MediaRecorder`: the canvas video
track, plus the audio-destination tracks only when `hasAudio` is set. -/
structure OutputStream where
  videoTrackCount : ℕ
  hasAudioTracks : Bool
deriving DecidableEq

/-- The recording-relevant component state before/after `handleStartRecording`. -/
structure StartState where
  isRecording : Bool
  sourcesMuted : Bool
deriving DecidableEq

/-- What `handleStartRecording` produced: the resulting state, the chosen
encoding container (if any), the stream given to the recorder (if one was
created) and whether the unsupported-recording alert was raised. -/
structure StartResult where
  state : StartState
  choice : Option MimeChoice
  stream : Option OutputStream
  unsupportedAlert : Bool
deriving DecidableEq

/-- `handleStartRecording` in `App.tsx`, up to entering the recording state:
all video sources are unmuted, the audio graph is connected source by source
(failures are caught and skipped), the combined stream is built, the
container is probed; when no candidate is supported the handler alerts,
re-mutes the sources and returns without setting `isRecording`. -/
def handleStartRecording (isSafari : Bool) (isTypeSupported : String → Bool)
    (sources : List VideoSource) (st : StartState) : StartResult :=
  let hasAudio := hasAudioAfter sources
  let finalStream : OutputStream := { videoTrackCount := 1, hasAudioTracks := hasAudio }
  let supportedType := getSupportedMimeType isSafari isTypeSupported
  if supportedType.mimeType = "" then
    { state := { st with sourcesMuted := true }
    , choice := none
    , stream := none
    , unsupportedAlert := true }
  else
    { state := { isRecording := true, sourcesMuted := false }
    , choice := some supportedType
    , stream := some finalStream
    , unsupportedAlert := false }

/-- One drawing action of a render-loop iteration. -/
inductive DrawCmd where
  | drawBottom : DrawCmd
  | fillPlaceholder : DrawCmd
  | drawFiltered : List Pixel → ℚ → ℚ → ℚ → ℚ → DrawCmd
  | drawDirect : ℚ → ℚ → ℚ → ℚ → DrawCmd
deriving DecidableEq

/-- The observable outcome of one `render()` iteration. -/
structure FrameOutput where
  cmds : List DrawCmd
  loggedError : Bool
  rescheduled : Bool
deriving DecidableEq

/-- The environment one `render()` iteration runs in: which layer elements
are present, the top layer's intrinsic dimensions and current frame pixels,
the transform and chroma settings, and whether `getImageData` on the
offscreen buffer succeeds (`readbackOk = false` models the call throwing). -/
structure RenderEnv where
  bottomPresent : Bool
  topPresent : Bool
  topWidth : ℕ
  topHeight : ℕ
  topFrame : List Pixel
  transform : VideoTransform
  settings : ChromaKeySettings
  readbackOk : Bool

/-- One iteration of the `render` loop in `PreviewCanvas`: draw the bottom
layer (or the placeholder fill), then — when a top layer with nonzero
intrinsic dimensions is present — either the chroma-keyed frame at the
transform rectangle, or, when pixel readback throws, log the error and draw
the unfiltered element directly at the same rectangle; finally request the
next animation frame (unconditionally). -/
def renderFrame (env : RenderEnv) : FrameOutput :=
  let bottomCmds := if env.bottomPresent then [DrawCmd.drawBottom] else [DrawCmd.fillPlaceholder]
  let topStep :=
    if env.topPresent then
      if 0 < env.topWidth ∧ 0 < env.topHeight then
        if env.readbackOk then
          ( [DrawCmd.drawFiltered
              (chromaKeyFrame env.settings.color env.settings.tolerance env.topFrame)
              env.transform.x env.transform.y env.transform.width env.transform.height]
          , false )
        else
          ( [DrawCmd.drawDirect
              env.transform.x env.transform.y env.transform.width env.transform.height]
          , true )
      else ([], false)
    else ([], false)
  { cmds := bottomCmds ++ topStep.1
  , loggedError := topStep.2
  , rescheduled := true }

/-- Base-16 digit expansion, most significant first, as JavaScript's
`Number.prototype.toString(16)` produces it for a natural number
(`Nat.digitChar` yields the same lowercase `0-9a-f` characters). -/
def toHexChars (n : ℕ) : List Char :=
  if _h : n < 16 then [Nat.digitChar n]
  else toHexChars (n / 16) ++ [Nat.digitChar (n % 16)]
termination_by n
decreasing_by
  exact Nat.div_lt_self (by omega) (by omega)

/-- `rgbToHex` in `App.tsx`:
`"#" + ((1 << 24) + (r << 16) + (g << 8) + b).toString(16).slice(1).toUpperCase()`. -/
def rgbToHex (r g b : ℕ) : String :=
  String.mk ('#' :: ((toHexChars (2 ^ 24 + r * 2 ^ 16 + g * 2 ^ 8 + b)).drop 1).map Char.toUpper)

/-- Value of one hex digit as the case-insensitive character class
`[a-f\d]` of the `hexToRgb` regex and `parseInt(_, 16)` interpret it. -/
def hexDigitVal (c : Char) : Option ℕ :=
  if '0' ≤ c ∧ c ≤ '9' then some (c.toNat - '0'.toNat)
  else if 'a' ≤ c ∧ c ≤ 'f' then some (c.toNat - 'a'.toNat + 10)
  else if 'A' ≤ c ∧ c ≤ 'F' then some (c.toNat - 'A'.toNat + 10)
  else none

/-- Matching the body of `hexToRgb`'s regex: exactly three groups of two hex
digits, each group parsed with `parseInt(_, 16)`. -/
def parseHex6 : List Char → Option RGBColor
  | [c1, c2, c3, c4, c5, c6] =>
    match hexDigitVal c1, hexDigitVal c2, hexDigitVal c3,
          hexDigitVal c4, hexDigitVal c5, hexDigitVal c6 with
    | some d1, some d2, some d3, some d4, some d5, some d6 =>
      some ⟨16 * d1 + d2, 16 * d3 + d4, 16 * d5 + d6⟩
    | _, _, _, _, _, _ => none
  | _ => none

/-- `hexToRgb` in `App.tsx`: the regex `^#?([a-f\d]{2})([a-f\d]{2})([a-f\d]{2})$/i`
optionally strips one leading `#` and then requires exactly six hex digits. -/
def hexToRgb (s : String) : Option RGBColor :=
  let cs := s.toList
  parseHex6 (if cs.head? = some '#' then cs.tail else cs)

/-- The chroma-key decision of the source (`Math.sqrt` of the integer squared
distance compared strictly with the integer tolerance) coincides with the
integer comparison used in `chromaKeyPixel`. -/
theorem sqrt_threshold_iff (d : ℤ) (hd : 0 ≤ d) (tolerance : ℕ) :
    Real.sqrt (d : ℝ) < (tolerance : ℝ) ↔ d < (tolerance : ℤ) ^ 2 := by
  rcases Nat.eq_zero_or_pos tolerance with h0 | hpos
  · subst h0
    simp only [Nat.cast_zero]
    constructor
    · intro h
      exact absurd (lt_of_le_of_lt (Real.sqrt_nonneg _) h) (lt_irrefl 0)
    · intro h
      exact absurd h (by simpa using hd)
  · have ht : (0 : ℝ) < (tolerance : ℝ) := by exact_mod_cast hpos
    rw [Real.sqrt_lt' ht]
    constructor
    · intro h
      exact_mod_cast h
    · intro h
      exact_mod_cast h

/-- C1: for every tolerance in `[0,255]` and every pixel of the foreground
frame buffer, the chroma-key filter sets the pixel's alpha to `0` exactly
when the Euclidean RGB distance `sqrt((r-kr)² + (g-kg)² + (b-kb)²)` to the
key colour is strictly below the tolerance (equality is not keyed), leaving
the RGB channels of keyed pixels and every channel of non-keyed pixels
unchanged. -/
theorem chromaKey_strict_threshold (key : RGBColor) (tolerance : ℕ)
    (frame : List Pixel) (_htol : tolerance ≤ 255) :
    chromaKeyFrame key tolerance frame = frame.map (fun p =>
      if Real.sqrt ((((p.r : ℝ) - (key.r : ℝ)) ^ 2 + ((p.g : ℝ) - (key.g : ℝ)) ^ 2
            + ((p.b : ℝ) - (key.b : ℝ)) ^ 2)) < (tolerance : ℝ)
      then { p with a := 0 } else p) := by
  unfold chromaKeyFrame
  refine List.map_congr_left (fun p _hp => ?_)
  unfold chromaKeyPixel
  have hd : (0 : ℤ) ≤ sqDist p key := by
    unfold sqDist
    positivity
  have hcast : (((p.r : ℝ) - (key.r : ℝ)) ^ 2 + ((p.g : ℝ) - (key.g : ℝ)) ^ 2
      + ((p.b : ℝ) - (key.b : ℝ)) ^ 2) = ((sqDist p key : ℤ) : ℝ) := by
    unfold sqDist
    push_cast
    ring
  rw [hcast]
  exact if_congr (Iff.symm (sqrt_threshold_iff (sqDist p key) hd tolerance)) rfl rfl

/-- Witness for C1 at a concrete key, tolerance and one-pixel frame. -/
theorem chromaKey_strict_threshold_witness :
    (50 : ℕ) ≤ 255 ∧
    chromaKeyFrame ⟨0, 255, 0⟩ 50 [⟨10, 240, 5, 200⟩] = [(⟨10, 240, 5, 200⟩ : Pixel)].map (fun p =>
      if Real.sqrt ((((p.r : ℝ) - ((0 : ℕ) : ℝ)) ^ 2 + ((p.g : ℝ) - ((255 : ℕ) : ℝ)) ^ 2
            + ((p.b : ℝ) - ((0 : ℕ) : ℝ)) ^ 2)) < ((50 : ℕ) : ℝ)
      then { p with a := 0 } else p) :=
  ⟨by decide, chromaKey_strict_threshold ⟨0, 255, 0⟩ 50 [⟨10, 240, 5, 200⟩] (by decide)⟩

/-- Rounding interchange for the centred `x`: `Math.round((w - w*0.5)/2)`
computed by the source equals `Math.round((w - Math.round(w*0.5))/2)`
stated by the spec, for every natural surface width. -/
theorem center_x_rounded (n : ℕ) :
    round (((n : ℚ) - ((round ((n : ℚ) * (1 / 2)) : ℤ) : ℚ)) / 2)
      = round (((n : ℚ) - (n : ℚ) * (1 / 2)) / 2) := by
  obtain ⟨m, hm | hm⟩ := Nat.even_or_odd' n
  · have h : (n : ℚ) = 2 * (m : ℚ) := by rw [hm]; push_cast; ring
    rw [h]
    have h2 : (2 * (m : ℚ)) * (1 / 2) = ((m : ℤ) : ℚ) := by push_cast; ring
    rw [h2, round_intCast]
  · have h : (n : ℚ) = 2 * (m : ℚ) + 1 := by rw [hm]; push_cast; ring
    rw [h]
    have h3 : round ((2 * (m : ℚ) + 1) * (1 / 2)) = (m : ℤ) + 1 := by
      have h2 : (2 * (m : ℚ) + 1) * (1 / 2) = ((m : ℤ) : ℚ) + 1 / 2 := by push_cast; ring
      rw [h2, round_int_add]
      norm_num [round_eq]
    rw [h3]
    obtain ⟨k, hk | hk⟩ := Nat.even_or_odd' m
    · have hL : (2 * (m : ℚ) + 1 - (((m : ℤ) + 1 : ℤ) : ℚ)) / 2 = ((k : ℤ) : ℚ) := by
        rw [hk]; push_cast; ring
      have hR : (2 * (m : ℚ) + 1 - (2 * (m : ℚ) + 1) * (1 / 2)) / 2 = ((k : ℤ) : ℚ) + 1 / 4 := by
        rw [hk]; push_cast; ring
      rw [hL, hR, round_intCast, round_int_add]
      norm_num [round_eq]
    · have hL : (2 * (m : ℚ) + 1 - (((m : ℤ) + 1 : ℤ) : ℚ)) / 2 = ((k : ℤ) : ℚ) + 1 / 2 := by
        rw [hk]; push_cast; ring
      have hR : (2 * (m : ℚ) + 1 - (2 * (m : ℚ) + 1) * (1 / 2)) / 2 = ((k : ℤ) : ℚ) + 3 / 4 := by
        rw [hk]; push_cast; ring
      rw [hL, hR, round_int_add, round_int_add]
      norm_num [round_eq]

/-- C2 counterexample: for the 800×600 background with a 400×400 foreground
the code derives `y = 100`, not the claimed `175`; and for an 801-wide
surface with aspect ratio 2 the code's height (`round` of the unrounded
baseline width divided by the ratio) is `200`, while the claim's formula
`round(round(801*0.5)/aspectRatio)` gives `201`. -/
theorem initialTransform_claim_cex :
    (deriveInitialTransform ⟨800, 600⟩ (aspectRatioOf 400 400)).y = 100 ∧
    ¬((100 : ℚ) = 175) ∧
    (deriveInitialTransform ⟨801, 600⟩ 2).height = 200 ∧
    round ((((round ((801 : ℚ) * (1 / 2)) : ℤ) : ℚ)) / 2) = 201 ∧
    ¬((200 : ℚ) = 201) := by
  refine ⟨?_, by norm_num, ?_, ?_, by norm_num⟩
  · simp only [deriveInitialTransform, aspectRatioOf]
    norm_num [round_eq]
  · simp only [deriveInitialTransform]
    norm_num [round_eq]
  · norm_num [round_eq]

/-- C2 (amended): the initial transform has `size = 100`,
`width = round(surfaceWidth * 0.5)`,
`height = round((surfaceWidth * 0.5) / aspectRatio)` (the division uses the
unrounded baseline width), is centred — `x = round((surfaceWidth - width)/2)`
with the rounded width, `y = round((surfaceHeight - baselineHeight)/2)` with
the unrounded baseline height — and the 800×600 background with a 400×400
foreground yields exactly `{x: 200, y: 100, width: 400, height: 400, size: 100}`. -/
theorem initialTransform_formula (dims : LayerDimensions) (aspectRatio : ℚ) :
    (deriveInitialTransform dims aspectRatio).size = 100 ∧
    (deriveInitialTransform dims aspectRatio).width
      = ((round ((dims.width : ℚ) * (1 / 2)) : ℤ) : ℚ) ∧
    (deriveInitialTransform dims aspectRatio).height
      = ((round (((dims.width : ℚ) * (1 / 2)) / aspectRatio) : ℤ) : ℚ) ∧
    (deriveInitialTransform dims aspectRatio).x
      = ((round (((dims.width : ℚ) - (deriveInitialTransform dims aspectRatio).width) / 2) : ℤ) : ℚ) ∧
    (deriveInitialTransform dims aspectRatio).y
      = ((round (((dims.height : ℚ) - ((dims.width : ℚ) * (1 / 2)) / aspectRatio) / 2) : ℤ) : ℚ) ∧
    deriveInitialTransform ⟨800, 600⟩ (aspectRatioOf 400 400)
      = { x := 200, y := 100, width := 400, height := 400, size := 100 } := by
  refine ⟨rfl, rfl, rfl, ?_, rfl, ?_⟩
  · exact congrArg (fun z : ℤ => (z : ℚ)) (center_x_rounded dims.width).symm
  · simp only [deriveInitialTransform, aspectRatioOf]
    norm_num [round_eq]

/-- C3: applying an update whose partial contains `size = s` recomputes
`width`/`height` from the 100%-baseline (half the surface width, divided by
the aspect ratio) scaled by `s/100` and rounded — a pure function of `s`,
the surface width and the aspect ratio, independent of the previous
transform — leaves `x`,`y` unchanged when the partial does not contain
them, and at `s = 100` reproduces exactly the initial derivation's
`width`/`height`. -/
theorem sizeUpdate_pure_of_size (dims : LayerDimensions) (aspectRatio : ℚ)
    (h : ¬(aspectRatio = 0)) (prev prev' : VideoTransform) (s : ℚ) :
    (handleTransformChange (some aspectRatio) (some dims) prev { size := some s }).width
      = ((round (((dims.width : ℚ) * (1 / 2)) * (s / 100)) : ℤ) : ℚ) ∧
    (handleTransformChange (some aspectRatio) (some dims) prev { size := some s }).height
      = ((round ((((dims.width : ℚ) * (1 / 2)) * (s / 100)) / aspectRatio) : ℤ) : ℚ) ∧
    (handleTransformChange (some aspectRatio) (some dims) prev { size := some s }).x = prev.x ∧
    (handleTransformChange (some aspectRatio) (some dims) prev { size := some s }).y = prev.y ∧
    (handleTransformChange (some aspectRatio) (some dims) prev' { size := some s }).width
      = (handleTransformChange (some aspectRatio) (some dims) prev { size := some s }).width ∧
    (handleTransformChange (some aspectRatio) (some dims) prev' { size := some s }).height
      = (handleTransformChange (some aspectRatio) (some dims) prev { size := some s }).height ∧
    (handleTransformChange (some aspectRatio) (some dims) prev { size := some 100 }).width
      = (deriveInitialTransform dims aspectRatio).width ∧
    (handleTransformChange (some aspectRatio) (some dims) prev { size := some 100 }).height
      = (deriveInitialTransform dims aspectRatio).height := by
  simp only [handleTransformChange, mergePartial, deriveInitialTransform, if_neg h]
  norm_num

/-- Witness for C3 at concrete surface, aspect ratio, transforms and size. -/
theorem sizeUpdate_pure_of_size_witness :
    ¬((1 : ℚ) = 0) ∧
    (handleTransformChange (some 1) (some ⟨800, 600⟩)
        ⟨5, 7, 11, 13, 40⟩ { size := some 50 }).width
      = ((round (((800 : ℕ) : ℚ) * (1 / 2) * ((50 : ℚ) / 100)) : ℤ) : ℚ) :=
  ⟨by norm_num,
   (sizeUpdate_pure_of_size ⟨800, 600⟩ 1 (by norm_num) ⟨5, 7, 11, 13, 40⟩ ⟨1, 2, 3, 4, 5⟩ 50).1⟩

/-- C10: a partial transform update requested while the foreground aspect
ratio or the surface dimensions are not yet available (`null` state) is
silently dropped: every field of the transform is left unchanged. -/
theorem transformGuard_drops_update (aspectRatioOpt : Option ℚ)
    (dimsOpt : Option LayerDimensions) (prev : VideoTransform) (p : PartialTransform)
    (h : aspectRatioOpt = none ∨ dimsOpt = none) :
    handleTransformChange aspectRatioOpt dimsOpt prev p = prev ∧
    (handleTransformChange aspectRatioOpt dimsOpt prev p).x = prev.x ∧
    (handleTransformChange aspectRatioOpt dimsOpt prev p).y = prev.y ∧
    (handleTransformChange aspectRatioOpt dimsOpt prev p).width = prev.width ∧
    (handleTransformChange aspectRatioOpt dimsOpt prev p).height = prev.height ∧
    (handleTransformChange aspectRatioOpt dimsOpt prev p).size = prev.size := by
  have heq : handleTransformChange aspectRatioOpt dimsOpt prev p = prev := by
    rcases h with h | h
    · subst h
      cases dimsOpt <;> rfl
    · subst h
      cases aspectRatioOpt <;> rfl
  exact ⟨heq, by rw [heq], by rw [heq], by rw [heq], by rw [heq], by rw [heq]⟩

/-- Witness for C10: with no aspect ratio yet, an `x`-update is dropped. -/
theorem transformGuard_drops_update_witness :
    ((none : Option ℚ) = none ∨ (some (⟨800, 600⟩ : LayerDimensions)) = none) ∧
    handleTransformChange none (some ⟨800, 600⟩) ⟨1, 2, 3, 4, 5⟩ { x := some 9 }
      = (⟨1, 2, 3, 4, 5⟩ : VideoTransform) :=
  ⟨Or.inl rfl,
   (transformGuard_drops_update none (some ⟨800, 600⟩) ⟨1, 2, 3, 4, 5⟩ { x := some 9 }
      (Or.inl rfl)).1⟩

/-- C7 counterexample: with a 301-wide surface and a 306-wide foreground the
movable range is −5, and the percent→pixel conversion writes `x = −5/2`,
which is not an integer — the claimed rounding does not hold on the
`movableRange ≤ 0` branch. -/
theorem roundedWrites_cex :
    percentToPixelLR ⟨301, 300⟩ ⟨0, 0, 306, 100, 100⟩ 50 = -(5 / 2 : ℚ) ∧
    ¬ isIntegral (percentToPixelLR ⟨301, 300⟩ ⟨0, 0, 306, 100, 100⟩ 50) := by
  have hval : percentToPixelLR ⟨301, 300⟩ ⟨0, 0, 306, 100, 100⟩ 50 = -(5 / 2 : ℚ) := by
    simp only [percentToPixelLR]
    norm_num
  refine ⟨hval, ?_⟩
  rw [hval]
  rintro ⟨k, hk⟩
  have h2 : (-5 : ℚ) = 2 * (k : ℚ) := by
    field_simp at hk
    linarith
  have h3 : (-5 : ℤ) = 2 * k := by exact_mod_cast h2
  omega

/-- C7 (amended): every pixel value written by the geometry operations —
initial derivation, size-based recomputation, drag moves, and the
`movableRange > 0` branch of the percent→pixel conversion — is a rounded
integer; the `movableRange ≤ 0` branch alone writes `movableRange / 2`
unrounded (a non-integer when the movable range is odd). -/
theorem roundedWrites_spec (dims : LayerDimensions) (aspectRatio : ℚ)
    (h : ¬(aspectRatio = 0)) (prev : VideoTransform) (s : ℚ) (drag : DragStart)
    (pos : ℚ × ℚ) (t : VideoTransform) (numValue : ℚ) :
    isIntegral (deriveInitialTransform dims aspectRatio).x ∧
    isIntegral (deriveInitialTransform dims aspectRatio).y ∧
    isIntegral (deriveInitialTransform dims aspectRatio).width ∧
    isIntegral (deriveInitialTransform dims aspectRatio).height ∧
    isIntegral (handleTransformChange (some aspectRatio) (some dims) prev
      { size := some s }).width ∧
    isIntegral (handleTransformChange (some aspectRatio) (some dims) prev
      { size := some s }).height ∧
    (∀ q, (handleDragMove drag pos).x = some q → isIntegral q) ∧
    (∀ q, (handleDragMove drag pos).y = some q → isIntegral q) ∧
    (0 < (dims.width : ℚ) - t.width → isIntegral (percentToPixelLR dims t numValue)) ∧
    ((dims.width : ℚ) - t.width ≤ 0 →
      percentToPixelLR dims t numValue = ((dims.width : ℚ) - t.width) / 2) ∧
    (0 < (dims.height : ℚ) - t.height → isIntegral (percentToPixelUD dims t numValue)) ∧
    ((dims.height : ℚ) - t.height ≤ 0 →
      percentToPixelUD dims t numValue = ((dims.height : ℚ) - t.height) / 2) := by
  refine ⟨⟨_, rfl⟩, ⟨_, rfl⟩, ⟨_, rfl⟩, ⟨_, rfl⟩, ?_, ?_, ?_, ?_, ?_, ?_, ?_, ?_⟩
  · simp only [handleTransformChange, if_neg h]
    exact ⟨_, rfl⟩
  · simp only [handleTransformChange, if_neg h]
    exact ⟨_, rfl⟩
  · intro q hq
    simp only [handleDragMove, Option.some.injEq] at hq
    exact ⟨_, hq.symm⟩
  · intro q hq
    simp only [handleDragMove, Option.some.injEq] at hq
    exact ⟨_, hq.symm⟩
  · intro hmw
    simp only [percentToPixelLR, if_neg (not_le.mpr hmw)]
    exact ⟨_, rfl⟩
  · intro hmw
    simp only [percentToPixelLR, if_pos hmw]
  · intro hmh
    simp only [percentToPixelUD, if_neg (not_le.mpr hmh)]
    exact ⟨_, rfl⟩
  · intro hmh
    simp only [percentToPixelUD, if_pos hmh]

/-- Witness for C7 at concrete inputs (positive movable range on both axes). -/
theorem roundedWrites_spec_witness :
    ¬((2 : ℚ) = 0) ∧
    isIntegral (deriveInitialTransform ⟨800, 600⟩ 2).x ∧
    (0 < ((800 : ℕ) : ℚ) - (300 : ℚ) →
      isIntegral (percentToPixelLR ⟨800, 600⟩ ⟨10, 20, 300, 150, 100⟩ 25)) :=
  ⟨by norm_num,
   (roundedWrites_spec ⟨800, 600⟩ 2 (by norm_num) ⟨1, 2, 3, 4, 5⟩ 50
      ⟨1, 1, 1, 1⟩ (3, 4) ⟨10, 20, 300, 150, 100⟩ 25).1,
   (roundedWrites_spec ⟨800, 600⟩ 2 (by norm_num) ⟨1, 2, 3, 4, 5⟩ 50
      ⟨1, 1, 1, 1⟩ (3, 4) ⟨10, 20, 300, 150, 100⟩ 25).2.2.2.2.2.2.2.2.1⟩

/-- Round-trip core: clamping is the identity for an in-range offset, the
percent scaling cancels, and the final `Math.round` moves the value by at
most `1/2 ≤ 1`. -/
theorem clamp_roundtrip_aux (mw off : ℚ) (hmw : 0 < mw) (h0 : 0 ≤ off) (h1 : off ≤ mw) :
    |((round ((max 0 (min 100 ((off / mw) * 100)) / 100) * mw) : ℤ) : ℚ) - off| ≤ 1 := by
  have hp0 : 0 ≤ (off / mw) * 100 := by positivity
  have hp1 : (off / mw) * 100 ≤ 100 := by
    have hq : off / mw ≤ 1 := (div_le_one hmw).mpr h1
    linarith
  rw [min_eq_right hp1, max_eq_right hp0]
  have harg : ((off / mw) * 100 / 100) * mw = off := by
    field_simp
    ring
  rw [harg]
  have habs : |off - ((round off : ℤ) : ℚ)| ≤ 1 / 2 := abs_sub_round off
  rw [abs_sub_comm] at habs
  linarith

/-- C6 counterexample: with a 300-wide surface and a 200-wide foreground
(movable range 100 > 0) at the out-of-range offset `x = 200`, the clamped
pixel→percent→pixel round trip returns 100, which is 100 pixels away from
the original offset — not within 1 pixel. -/
theorem percentRoundTrip_cex :
    (0 : ℚ) < ((300 : ℕ) : ℚ) - (200 : ℚ) ∧
    (⟨200, 0, 200, 200, 100⟩ : VideoTransform).x = 200 ∧
    percentToPixelLR ⟨300, 300⟩ ⟨200, 0, 200, 200, 100⟩
      (pixelToPercentLR ⟨300, 300⟩ ⟨200, 0, 200, 200, 100⟩) = 100 ∧
    ¬(|(100 : ℚ) - 200| ≤ 1) := by
  refine ⟨by norm_num, rfl, ?_, by norm_num⟩
  have hpct : pixelToPercentLR ⟨300, 300⟩ ⟨200, 0, 200, 200, 100⟩ = 100 := by
    simp only [pixelToPercentLR]
    norm_num
  rw [hpct]
  simp only [percentToPixelLR]
  norm_num [round_eq]

/-- C6 (amended): on each axis, when `movableRange = surfaceDimension −
foregroundDimension` is strictly positive and the pixel offset lies within
`[0, movableRange]`, converting the offset to the (clamped) percent and back
yields the original offset within 1 pixel of rounding (offsets outside that
range are clamped by the pixel→percent direction and do not round-trip);
when `movableRange ≤ 0`, the computed percent is 50 regardless of the
offset, and converting 50% back yields `movableRange / 2`. -/
theorem percentRoundTrip_spec (dims : LayerDimensions) (t : VideoTransform) :
    (0 < (dims.width : ℚ) - t.width → 0 ≤ t.x → t.x ≤ (dims.width : ℚ) - t.width →
      |percentToPixelLR dims t (pixelToPercentLR dims t) - t.x| ≤ 1) ∧
    ((dims.width : ℚ) - t.width ≤ 0 →
      pixelToPercentLR dims t = 50 ∧
      percentToPixelLR dims t 50 = ((dims.width : ℚ) - t.width) / 2) ∧
    (0 < (dims.height : ℚ) - t.height → 0 ≤ t.y → t.y ≤ (dims.height : ℚ) - t.height →
      |percentToPixelUD dims t (pixelToPercentUD dims t) - t.y| ≤ 1) ∧
    ((dims.height : ℚ) - t.height ≤ 0 →
      pixelToPercentUD dims t = 50 ∧
      percentToPixelUD dims t 50 = ((dims.height : ℚ) - t.height) / 2) := by
  refine ⟨?_, ?_, ?_, ?_⟩
  · intro hmw h0 h1
    simp only [pixelToPercentLR, percentToPixelLR, if_neg (not_le.mpr hmw)]
    exact clamp_roundtrip_aux _ _ hmw h0 h1
  · intro hmw
    constructor
    · simp only [pixelToPercentLR, if_pos hmw]
      norm_num
    · simp only [percentToPixelLR, if_pos hmw]
  · intro hmh h0 h1
    simp only [pixelToPercentUD, percentToPixelUD, if_neg (not_le.mpr hmh)]
    exact clamp_roundtrip_aux _ _ hmh h0 h1
  · intro hmh
    constructor
    · simp only [pixelToPercentUD, if_pos hmh]
      norm_num
    · simp only [percentToPixelUD, if_pos hmh]

/-- Witness for C6: an in-range offset round-trips on the horizontal axis,
and an oversized foreground pins the vertical percent at 50. -/
theorem percentRoundTrip_spec_witness :
    ((0 : ℚ) < ((300 : ℕ) : ℚ) - (100 : ℚ) ∧ (0 : ℚ) ≤ 40 ∧
      (40 : ℚ) ≤ ((300 : ℕ) : ℚ) - (100 : ℚ) ∧
      |percentToPixelLR ⟨300, 200⟩ ⟨40, 0, 100, 250, 100⟩
        (pixelToPercentLR ⟨300, 200⟩ ⟨40, 0, 100, 250, 100⟩) - 40| ≤ 1) ∧
    (((200 : ℕ) : ℚ) - (250 : ℚ) ≤ 0 ∧
      pixelToPercentUD ⟨300, 200⟩ ⟨40, 0, 100, 250, 100⟩ = 50) := by
  constructor
  · refine ⟨by norm_num, by norm_num, by norm_num, ?_⟩
    exact (percentRoundTrip_spec ⟨300, 200⟩ ⟨40, 0, 100, 250, 100⟩).1
      (by norm_num) (by norm_num) (by norm_num)
  · refine ⟨by norm_num, ?_⟩
    exact ((percentRoundTrip_spec ⟨300, 200⟩ ⟨40, 0, 100, 250, 100⟩).2.2.2 (by norm_num)).1

/-- C5: in a frame where reading back the foreground pixels from the
offscreen buffer fails, the render loop logs the condition and draws the
unfiltered foreground element directly at the current transform rectangle
— and still schedules the next frame; in an otherwise identical frame where
readback succeeds, the filtered frame is drawn at the same rectangle and
nothing is logged, so the fallback is per-frame only. -/
theorem renderLoop_readback_fallback (env : RenderEnv)
    (htop : env.topPresent = true) (hw : 0 < env.topWidth) (hh : 0 < env.topHeight)
    (hfail : env.readbackOk = false) :
    (renderFrame env).rescheduled = true ∧
    (renderFrame env).loggedError = true ∧
    (renderFrame env).cmds
      = (if env.bottomPresent then [DrawCmd.drawBottom] else [DrawCmd.fillPlaceholder])
        ++ [DrawCmd.drawDirect env.transform.x env.transform.y
              env.transform.width env.transform.height] ∧
    (renderFrame { env with readbackOk := true }).loggedError = false ∧
    (renderFrame { env with readbackOk := true }).cmds
      = (if env.bottomPresent then [DrawCmd.drawBottom] else [DrawCmd.fillPlaceholder])
        ++ [DrawCmd.drawFiltered
              (chromaKeyFrame env.settings.color env.settings.tolerance env.topFrame)
              env.transform.x env.transform.y env.transform.width env.transform.height] ∧
    (renderFrame { env with readbackOk := true }).rescheduled = true := by
  have hwh : 0 < env.topWidth ∧ 0 < env.topHeight := ⟨hw, hh⟩
  refine ⟨rfl, ?_, ?_, ?_, ?_, rfl⟩ <;>
    simp [renderFrame, htop, hfail, if_pos hwh]

/-- Witness for C5 at a concrete render environment. -/
theorem renderLoop_readback_fallback_witness :
    ((⟨true, true, 2, 2, [⟨1, 2, 3, 4⟩], ⟨0, 0, 10, 10, 100⟩,
        ⟨⟨0, 255, 0⟩, "#00FF00", 50⟩, false⟩ : RenderEnv).topPresent = true) ∧
    (0 : ℕ) < 2 ∧
    (renderFrame ⟨true, true, 2, 2, [⟨1, 2, 3, 4⟩], ⟨0, 0, 10, 10, 100⟩,
        ⟨⟨0, 255, 0⟩, "#00FF00", 50⟩, false⟩).loggedError = true :=
  ⟨rfl, by decide,
   (renderLoop_readback_fallback
      ⟨true, true, 2, 2, [⟨1, 2, 3, 4⟩], ⟨0, 0, 10, 10, 100⟩,
        ⟨⟨0, 255, 0⟩, "#00FF00", 50⟩, false⟩
      rfl (by decide) (by decide) rfl).2.1⟩

/-- Every candidate of both priority lists carries the extension of the
container its mime type names. -/
theorem candidate_extension_matches :
    ∀ c ∈ webmPrioritizedTypes ++ mp4PrioritizedTypes,
      mimeContainer c.mimeType = some c.extension := by decide

/-- No candidate of either priority list has an empty mime type. -/
theorem candidate_mime_nonempty :
    ∀ c ∈ webmPrioritizedTypes ++ mp4PrioritizedTypes, ¬(c.mimeType = "") := by decide

/-- C4: recording start probes a platform-specific ordered candidate list
(the Safari family's list prefers MP4, other browsers' prefers WebM) and
picks the first candidate the runtime reports supported; the chosen
candidate's download extension exactly matches the container its mime type
names; and when no candidate is supported, start raises the
recording-unsupported alert, chooses nothing, re-mutes the sources and does
not enter the recording state. -/
theorem startRecording_format_selection (isSafari : Bool) (probe : String → Bool)
    (sources : List VideoSource) (st : StartState) :
    (mp4PrioritizedTypes.head?.map (fun c => c.extension) = some "mp4") ∧
    (webmPrioritizedTypes.head?.map (fun c => c.extension) = some "webm") ∧
    ((∀ c ∈ (if isSafari then mp4PrioritizedTypes else webmPrioritizedTypes),
        probe c.mimeType = false) →
      (handleStartRecording isSafari probe sources st).unsupportedAlert = true ∧
      (handleStartRecording isSafari probe sources st).choice = none ∧
      (handleStartRecording isSafari probe sources st).state.isRecording = st.isRecording ∧
      (handleStartRecording isSafari probe sources st).state.sourcesMuted = true) ∧
    (∀ c, (handleStartRecording isSafari probe sources st).choice = some c →
      probe c.mimeType = true ∧
      (∃ pre post,
        (if isSafari then mp4PrioritizedTypes else webmPrioritizedTypes) = pre ++ c :: post ∧
        ∀ c' ∈ pre, probe c'.mimeType = false) ∧
      mimeContainer c.mimeType = some c.extension ∧
      downloadFilename c.extension = "videyo_export." ++ c.extension) := by
  refine ⟨by decide, by decide, ?_, ?_⟩
  · intro hall
    have hfind : (if isSafari then mp4PrioritizedTypes else webmPrioritizedTypes).find?
        (fun t => probe t.mimeType) = none := by
      rw [List.find?_eq_none]
      intro x hx
      simp [hall x hx]
    simp [handleStartRecording, getSupportedMimeType, hfind]
  · intro c hc
    rcases hfind : (if isSafari then mp4PrioritizedTypes else webmPrioritizedTypes).find?
        (fun t => probe t.mimeType) with _ | d
    · exfalso
      have : (handleStartRecording isSafari probe sources st).choice = none := by
        simp [handleStartRecording, getSupportedMimeType, hfind]
      rw [this] at hc
      exact Option.noConfusion hc
    · obtain ⟨hpd, pre, post, hl, hpre⟩ := List.find?_eq_some.mp hfind
      have hdmem : d ∈ webmPrioritizedTypes ++ mp4PrioritizedTypes := by
        have hmem : d ∈ (if isSafari then mp4PrioritizedTypes else webmPrioritizedTypes) := by
          rw [hl]
          exact List.mem_append_right _ (List.mem_cons_self _ _)
        rcases Bool.eq_false_or_eq_true isSafari with hs | hs <;>
          simp [hs] at hmem <;> simp [hmem]
      have hne : ¬(d.mimeType = "") := candidate_mime_nonempty d hdmem
      have hchoice : (handleStartRecording isSafari probe sources st).choice = some d := by
        simp [handleStartRecording, getSupportedMimeType, hfind, hne]
      rw [hchoice, Option.some.injEq] at hc
      subst hc
      refine ⟨by simpa using hpd, ⟨pre, post, hl, ?_⟩,
        candidate_extension_matches d hdmem, rfl⟩
      intro c' hc'
      simpa using hpre c' hc'

/-- Witness for C4: with a probe that reports nothing supported, start
aborts with the unsupported alert. -/
theorem startRecording_format_selection_witness :
    (∀ c ∈ (if false then mp4PrioritizedTypes else webmPrioritizedTypes),
      (fun _ => false : String → Bool) c.mimeType = false) ∧
    (handleStartRecording false (fun _ => false) [] ⟨false, true⟩).unsupportedAlert = true :=
  ⟨by decide,
   ((startRecording_format_selection false (fun _ => false) [] ⟨false, true⟩).2.2.1
      (by decide)).1⟩

/-- One step of the audio-connection loop, as a Boolean disjunction. -/
theorem hasAudio_step (acc : Bool) (v : VideoSource) :
    (if 0 < v.readyState then (if v.connectSucceeds then true else acc) else acc)
      = (acc || (decide (0 < v.readyState) && v.connectSucceeds)) := by
  by_cases h : 0 < v.readyState
  · cases hv : v.connectSucceeds <;> simp [h, hv]
  · simp [h]

/-- The `hasAudio` flag is set exactly when some source with `readyState > 0`
connects successfully. -/
theorem hasAudioAfter_iff (sources : List VideoSource) :
    hasAudioAfter sources = true ↔
      ∃ v ∈ sources, 0 < v.readyState ∧ v.connectSucceeds = true := by
  have hfold : ∀ (l : List VideoSource) (acc : Bool),
      l.foldl (fun hasAudio v =>
        if 0 < v.readyState then (if v.connectSucceeds then true else hasAudio) else hasAudio)
        acc
        = (acc || l.any (fun v => decide (0 < v.readyState) && v.connectSucceeds)) := by
    intro l
    induction l with
    | nil => intro acc; simp
    | cons a l ih =>
      intro acc
      rw [List.foldl_cons, hasAudio_step, ih, List.any_cons]
      cases acc <;> simp [Bool.or_assoc]
  unfold hasAudioAfter
  rw [hfold]
  simp [List.any_eq_true]

/-- C8: when some candidate container is supported, recording start always
succeeds regardless of per-source audio-connection outcomes (a source whose
audio cannot be connected is skipped), and the combined output stream
carries audio tracks exactly when at least one source with decodable data
connected successfully. -/
theorem startRecording_audio_tracks (isSafari : Bool) (probe : String → Bool)
    (sources : List VideoSource) (st : StartState)
    (h : ∃ c ∈ (if isSafari then mp4PrioritizedTypes else webmPrioritizedTypes),
      probe c.mimeType = true) :
    (handleStartRecording isSafari probe sources st).state.isRecording = true ∧
    (handleStartRecording isSafari probe sources st).unsupportedAlert = false ∧
    (handleStartRecording isSafari probe sources st).stream
      = some { videoTrackCount := 1, hasAudioTracks := hasAudioAfter sources } ∧
    (hasAudioAfter sources = true ↔
      ∃ v ∈ sources, 0 < v.readyState ∧ v.connectSucceeds = true) := by
  obtain ⟨c0, hc0mem, hc0⟩ := h
  rcases hfind : (if isSafari then mp4PrioritizedTypes else webmPrioritizedTypes).find?
      (fun t => probe t.mimeType) with _ | d
  · exfalso
    rw [List.find?_eq_none] at hfind
    exact hfind c0 hc0mem (by simpa using hc0)
  · obtain ⟨hpd, pre, post, hl, hpre⟩ := List.find?_eq_some.mp hfind
    have hdmem : d ∈ webmPrioritizedTypes ++ mp4PrioritizedTypes := by
      have hmem : d ∈ (if isSafari then mp4PrioritizedTypes else webmPrioritizedTypes) := by
        rw [hl]
        exact List.mem_append_right _ (List.mem_cons_self _ _)
      rcases Bool.eq_false_or_eq_true isSafari with hs | hs <;>
        simp [hs] at hmem <;> simp [hmem]
    have hne : ¬(d.mimeType = "") := candidate_mime_nonempty d hdmem
    refine ⟨?_, ?_, ?_, hasAudioAfter_iff sources⟩ <;>
      simp [handleStartRecording, getSupportedMimeType, hfind, hne]

/-- Witness for C8: with every container supported, a source list whose
first element is not yet decodable and whose second fails to connect yields
a recording with no audio tracks. -/
theorem startRecording_audio_tracks_witness :
    (∃ c ∈ (if false then mp4PrioritizedTypes else webmPrioritizedTypes),
      (fun _ => true : String → Bool) c.mimeType = true) ∧
    (handleStartRecording false (fun _ => true) [⟨0, true⟩, ⟨2, false⟩]
        ⟨false, true⟩).state.isRecording = true :=
  ⟨by decide,
   (startRecording_audio_tracks false (fun _ => true) [⟨0, true⟩, ⟨2, false⟩]
      ⟨false, true⟩ (by decide)).1⟩

/-- Peeling the last base-16 digit off a multi-digit number. -/
theorem toHexChars_step (a d : ℕ) (ha : 0 < a) (hd : d < 16) :
    toHexChars (16 * a + d) = toHexChars a ++ [Nat.digitChar d] := by
  conv_lhs => rw [toHexChars]
  rw [dif_neg (by omega)]
  have h1 : (16 * a + d) / 16 = a := by omega
  have h2 : (16 * a + d) % 16 = d := by omega
  rw [h1, h2]

/-- A single base-16 digit. -/
theorem toHexChars_base (d : ℕ) (hd : d < 16) : toHexChars d = [Nat.digitChar d] := by
  conv_lhs => rw [toHexChars]
  rw [dif_pos hd]

/-- Hex expansion of `(1 << 24) + (r << 16) + (g << 8) + b` for 8-bit
channels: a leading `'1'` followed by the three channels' digit pairs. -/
theorem toHexChars_rgb (r g b : ℕ) (hr : r ≤ 255) (hg : g ≤ 255) (hb : b ≤ 255) :
    toHexChars (2 ^ 24 + r * 2 ^ 16 + g * 2 ^ 8 + b)
      = ['1', Nat.digitChar (r / 16), Nat.digitChar (r % 16), Nat.digitChar (g / 16),
         Nat.digitChar (g % 16), Nat.digitChar (b / 16), Nat.digitChar (b % 16)] := by
  have e : 2 ^ 24 + r * 2 ^ 16 + g * 2 ^ 8 + b
      = 16 * (16 * (16 * (16 * (16 * (16 * 1 + r / 16) + r % 16) + g / 16) + g % 16) + b / 16)
        + b % 16 := by omega
  rw [e, toHexChars_step, toHexChars_step, toHexChars_step, toHexChars_step,
    toHexChars_step, toHexChars_step, toHexChars_base]
  · rfl
  all_goals omega

/-- Parsing inverts formatting digit-wise, including the upper-casing. -/
theorem hexDigitVal_toUpper_digitChar :
    ∀ d : ℕ, d < 16 → hexDigitVal (Char.toUpper (Nat.digitChar d)) = some d := by decide

/-- An upper-cased hex digit is never the `'#'` prefix character. -/
theorem toUpper_digitChar_ne_hash :
    ∀ d : ℕ, d < 16 → ¬(Char.toUpper (Nat.digitChar d) = '#') := by decide

/-- C9: for channels in `[0, 255]`, `hexToRgb` inverts `rgbToHex`, and it
accepts the hex string both with and without its leading `'#'`. -/
theorem hexRoundTrip (r g b : ℕ) (hr : r ≤ 255) (hg : g ≤ 255) (hb : b ≤ 255) :
    hexToRgb (rgbToHex r g b) = some ⟨r, g, b⟩ ∧
    hexToRgb (String.mk ((rgbToHex r g b).toList.tail)) = some ⟨r, g, b⟩ := by
  have hdig := toHexChars_rgb r g b hr hg hb
  have hlist : rgbToHex r g b = String.mk ('#' ::
      [Char.toUpper (Nat.digitChar (r / 16)), Char.toUpper (Nat.digitChar (r % 16)),
       Char.toUpper (Nat.digitChar (g / 16)), Char.toUpper (Nat.digitChar (g % 16)),
       Char.toUpper (Nat.digitChar (b / 16)), Char.toUpper (Nat.digitChar (b % 16))]) := by
    unfold rgbToHex
    rw [hdig]
    rfl
  have hparse : parseHex6
      [Char.toUpper (Nat.digitChar (r / 16)), Char.toUpper (Nat.digitChar (r % 16)),
       Char.toUpper (Nat.digitChar (g / 16)), Char.toUpper (Nat.digitChar (g % 16)),
       Char.toUpper (Nat.digitChar (b / 16)), Char.toUpper (Nat.digitChar (b % 16))]
      = some ⟨r, g, b⟩ := by
    simp only [parseHex6,
      hexDigitVal_toUpper_digitChar (r / 16) (by omega),
      hexDigitVal_toUpper_digitChar (r % 16) (by omega),
      hexDigitVal_toUpper_digitChar (g / 16) (by omega),
      hexDigitVal_toUpper_digitChar (g % 16) (by omega),
      hexDigitVal_toUpper_digitChar (b / 16) (by omega),
      hexDigitVal_toUpper_digitChar (b % 16) (by omega)]
    have e1 : 16 * (r / 16) + r % 16 = r := by omega
    have e2 : 16 * (g / 16) + g % 16 = g := by omega
    have e3 : 16 * (b / 16) + b % 16 = b := by omega
    rw [e1, e2, e3]
  constructor
  · rw [hlist]
    unfold hexToRgb
    simp only [String.toList, List.head?_cons, List.tail_cons, if_pos rfl]
    exact hparse
  · rw [hlist]
    unfold hexToRgb
    simp only [String.toList, List.tail_cons]
    rw [if_neg ?hne]
    case hne =>
      simp only [List.head?_cons, Option.some.injEq]
      exact toUpper_digitChar_ne_hash (r / 16) (by omega)
    exact hparse

/-- Witness for C9 at a concrete colour triple. -/
theorem hexRoundTrip_witness :
    (18 : ℕ) ≤ 255 ∧ (52 : ℕ) ≤ 255 ∧ (171 : ℕ) ≤ 255 ∧
    (hexToRgb (rgbToHex 18 52 171) = some ⟨18, 52, 171⟩ ∧
     hexToRgb (String.mk ((rgbToHex 18 52 171).toList.tail)) = some ⟨18, 52, 171⟩) :=
  ⟨by decide, by decide, by decide, hexRoundTrip 18 52 171 (by decide) (by decide) (by decide)⟩
